import Mathlib

/-!
Verification of the virtualenv backend module of pdm-venv
(src/pdm_venv/backends.py) against its natural-language specification.

The module is embedded shallowly:

* `PythonInfo` models `pdm.models.python.PythonInfo` (an external,
  immutable interpreter descriptor: executable path, version parts and a
  stable identifier string).
* `Project` models the read-only slice of the host `pdm.Project` object
  that the module consumes: the configured environments parent directory
  (`project.config["venv.location"]`), the configured name prefix, the
  project root, the default interpreter (`project.python`) and the
  interpreter-resolution query (`project.find_interpreters`).
* Filesystem checks, the running interpreter (`sys.executable`) and exit
  codes of external commands are parameters gathered in `World`.
* Every operation returns a `Res`: the ordered list of externally visible
  `Event`s it performed, the updated `Backend` (mutable state is exactly
  the `cached_property` slot for the resolved interpreter) and an
  `Except Err` outcome.  Exceptions raised by the Python code become
  `Except.error`; events performed before the raise are kept, as in
  Python.

Paths are modelled as strings; `Path a / b` becomes `a ++ "/" ++ b`.
-/

namespace PdmVenv

/-- External interpreter descriptor (`pdm.models.python.PythonInfo`). -/
structure PythonInfo where
  executable : String
  major : Nat
  minor : Nat
  identifier : String
deriving DecidableEq, Repr

/-- Modelled from the spec: the read-only project collaborator.
`venvLocation` is `project.config["venv.location"]`; `venvPrefixStr` is
the configured name prefix returned by `get_venv_prefix(project)`
(`pdm_venv/utils.py`, not part of the provided source, described by the
spec as "a configured name prefix"); `root` is `project.root`; `python`
is the project default interpreter; `findInterpreters` is the
interpreter-resolution query, returning the candidate list for a hint. -/
structure Project where
  venvLocation : String
  venvPrefixStr : String
  root : String
  python : PythonInfo
  findInterpreters : String → List PythonInfo

/-- The three concrete backend classes of `backends.py`. -/
inductive BackendKind
  | virtualenv
  | venv
  | conda
deriving DecidableEq, Repr

/-- A `Backend` instance: the constructor stores `project` and the
optional interpreter hint `python`; `cache` is the `cached_property`
storage slot for `_resolved_interpreter`, empty at construction. -/
structure Backend where
  kind : BackendKind
  project : Project
  python : Option String
  cache : Option PythonInfo

/-- Externally visible actions, in program order. -/
inductive Event
  | queryResolver (hint : String)
  | mkdir (path : String)
  | echoWarn (msg : String)
  | logCmd (cmd : List String)
  | run (cmd : List String)
  | rmtree (path : String)
deriving DecidableEq, Repr

/-- Failure kinds.  `interpreterNotFound` and `locationNotEmpty` and
`creationFailed` are the `VirtualenvCreateError` raises of the module
(distinguished by their messages / wrapped payloads); `usageError` is
`PdmUsageError`. -/
inductive Err
  | interpreterNotFound (hint : String)
  | locationNotEmpty (location : String)
  | usageError (msg : String)
  | creationFailed (cmd : List String) (exitCode : Int)
deriving DecidableEq, Repr

/-- Filesystem state as observed by the module. -/
structure FS where
  pathExists : String → Bool
  isDir : String → Bool

/-- Ambient world: filesystem, `sys.executable`, and the exit code each
external command line would produce. -/
structure World where
  fs : FS
  sysExecutable : String
  runExit : List String → Int

/-- Result of one operation: event trace, updated instance, outcome. -/
structure Res (α : Type) where
  events : List Event
  backend : Backend
  val : Except Err α

/-- Python truthiness of an optional string: `None` and `""` are falsy. -/
def truthy : Option String → Bool
  | none => false
  | some s => !(s == "")

/-- `Backend._resolved_interpreter` (a `cached_property`): on a cache
hit return the stored descriptor; otherwise, if the hint is falsy use
the project default, else query `find_interpreters` and take the first
match, raising when there is none.  The `cached_property` stores the
value only on successful return: a raising access caches nothing. -/
def resolvedInterpreter (b : Backend) : Res PythonInfo :=
  match b.cache with
  | some pi => ⟨[], b, Except.ok pi⟩
  | none =>
    if truthy b.python then
      match b.project.findInterpreters (b.python.getD "") with
      | [] =>
        ⟨[Event.queryResolver (b.python.getD "")], b,
          Except.error (Err.interpreterNotFound (b.python.getD ""))⟩
      | pi :: _ =>
        ⟨[Event.queryResolver (b.python.getD "")], { b with cache := some pi },
          Except.ok pi⟩
    else
      ⟨[], { b with cache := some b.project.python },
        Except.ok b.project.python⟩

/-- `Backend.ident` (the base-class property): the identifier of the resolved
descriptor. -/
def baseIdent (b : Backend) : Res String :=
  let r := resolvedInterpreter b
  ⟨r.events, r.backend, r.val.map PythonInfo.identifier⟩

/-- The `ident` property as dispatched on the concrete class:
`CondaBackend` overrides it to return a truthy hint verbatim, the other
two classes use the base property. -/
def identImpl (b : Backend) : Res String :=
  match b.kind with
  | BackendKind.conda =>
    if truthy b.python then ⟨[], b, Except.ok (b.python.getD "")⟩
    else baseIdent b
  | _ => baseIdent b

/-- `Backend.get_location`: ensure the configured parent directory
exists (`mkdir(exist_ok=True, parents=True)` when it is not a
directory), then return `parent / (prefix + (name or self.ident))`.
The `or` is Python short-circuit: `ident` is only evaluated when `name`
is falsy. -/
def getLocation (w : World) (b : Backend) (name : Option String) : Res String :=
  let parent := b.project.venvLocation
  let mkEvs : List Event :=
    if w.fs.isDir parent then [] else [Event.mkdir parent]
  if truthy name then
    ⟨mkEvs, b, Except.ok (parent ++ "/" ++ b.project.venvPrefixStr ++ name.getD "")⟩
  else
    let r := identImpl b
    ⟨mkEvs ++ r.events, r.backend,
      r.val.map fun idt => parent ++ "/" ++ b.project.venvPrefixStr ++ idt⟩

/-- `Backend._ensure_clean`: no-op when the location is absent; raise
`VirtualenvCreateError` ("The location ... is not empty") when present
without `force`; otherwise echo a notice to stderr and `shutil.rmtree`
the location.  The backend instance is untouched, so only the event
list and the outcome are returned. -/
def ensureClean (w : World) (location : String) (force : Bool) :
    List Event × Except Err Unit :=
  if w.fs.pathExists location then
    if force then
      ([Event.echoWarn ("Cleaning existing target directory " ++ location),
        Event.rmtree location], Except.ok ())
    else ([], Except.error (Err.locationNotEmpty location))
  else ([], Except.ok ())

/-- `Backend.subprocess_call`: log the command at detail verbosity, run
it, and wrap a non-zero exit (`subprocess.CalledProcessError`) in
`VirtualenvCreateError`.  The process is spawned in both branches. -/
def subprocessCall (w : World) (cmd : List String) :
    List Event × Except Err Unit :=
  ([Event.logCmd cmd, Event.run cmd],
    if w.runExit cmd = 0 then Except.ok ()
    else Except.error (Err.creationFailed cmd (w.runExit cmd)))

/-- Command line built by `VirtualenvBackend.perform_create`. -/
def virtualenvCmd (w : World) (pi : PythonInfo) (location : String)
    (args : List String) : List String :=
  [w.sysExecutable, "-m", "virtualenv", location] ++ ["-p", pi.executable] ++ args

/-- Command line built by `VenvBackend.perform_create`. -/
def venvCmd (pi : PythonInfo) (location : String) (args : List String) :
    List String :=
  [pi.executable, "-m", "venv", location] ++ args

/-- Command line built by `CondaBackend.perform_create`. -/
def condaCmd (location : String) (pythonVer : String) (args : List String) :
    List String :=
  ["conda", "create", "--yes", "--prefix", location, "pip",
    "python=" ++ pythonVer] ++ args

/-- The Python string method `startswith`: prefix test on the character lists. -/
def pyStartsWith (s p : String) : Bool :=
  p.data.isPrefixOf s.data

/-- Tail of `CondaBackend.perform_create` after `python_ver` is known:
reject a caller-supplied `python=` fragment with `PdmUsageError`,
otherwise run the conda command. -/
def condaCreateStep (w : World) (b : Backend) (location : String)
    (args : List String) (pythonVer : String) : Res Unit :=
  if args.any (fun a => pyStartsWith a "python=") then
    ⟨[], b, Except.error (Err.usageError "Cannot use python= in conda creation arguments")⟩
  else
    let p := subprocessCall w (condaCmd location pythonVer args)
    ⟨p.1, b, p.2⟩

/-- `perform_create` as dispatched on the concrete class. -/
def performCreate (w : World) (b : Backend) (location : String)
    (args : List String) : Res Unit :=
  match b.kind with
  | BackendKind.virtualenv =>
    let r := resolvedInterpreter b
    match r.val with
    | Except.error e => ⟨r.events, r.backend, Except.error e⟩
    | Except.ok pi =>
      let p := subprocessCall w (virtualenvCmd w pi location args)
      ⟨r.events ++ p.1, r.backend, p.2⟩
  | BackendKind.venv =>
    let r := resolvedInterpreter b
    match r.val with
    | Except.error e => ⟨r.events, r.backend, Except.error e⟩
    | Except.ok pi =>
      let p := subprocessCall w (venvCmd pi location args)
      ⟨r.events ++ p.1, r.backend, p.2⟩
  | BackendKind.conda =>
    if truthy b.python then
      condaCreateStep w b location args (b.python.getD "")
    else
      let r := resolvedInterpreter b
      match r.val with
      | Except.error e => ⟨r.events, r.backend, Except.error e⟩
      | Except.ok pi =>
        let s := condaCreateStep w r.backend location args
          (toString pi.major ++ "." ++ toString pi.minor)
        ⟨r.events ++ s.events, s.backend, s.val⟩

/-- `Backend.create`: compute the location (`project.root / ".venv"`
when `in_project`, else `get_location(name)`), run `_ensure_clean`,
then `perform_create`, and return the location on success. -/
def Backend.create (w : World) (b : Backend) (name : Option String)
    (args : List String) (force : Bool) (inProject : Bool) : Res String :=
  let rloc : Res String :=
    if inProject then ⟨[], b, Except.ok (b.project.root ++ "/.venv")⟩
    else getLocation w b name
  match rloc.val with
  | Except.error e => ⟨rloc.events, rloc.backend, Except.error e⟩
  | Except.ok location =>
    let clean := ensureClean w location force
    match clean.2 with
    | Except.error e => ⟨rloc.events ++ clean.1, rloc.backend, Except.error e⟩
    | Except.ok _ =>
      let rp := performCreate w rloc.backend location args
      ⟨rloc.events ++ clean.1 ++ rp.events, rp.backend,
        rp.val.map fun _ => location⟩

/-- The part of `create` after the location is known (proof helper;
`Backend.create` is definitionally `afterLocation` once the location
result is a success). -/
def afterLocation (w : World) (evs : List Event) (b : Backend)
    (location : String) (args : List String) (force : Bool) : Res String :=
  match (ensureClean w location force).2 with
  | Except.error e => ⟨evs ++ (ensureClean w location force).1, b, Except.error e⟩
  | Except.ok _ =>
    ⟨evs ++ (ensureClean w location force).1 ++
        (performCreate w b location args).events,
      (performCreate w b location args).backend,
      (performCreate w b location args).val.map fun _ => location⟩

/-- The `BACKENDS` registry mapping. -/
def BACKENDS : List (String × BackendKind) :=
  [("virtualenv", BackendKind.virtualenv),
   ("venv", BackendKind.venv),
   ("conda", BackendKind.conda)]

/-- The location value `create` uses, as a function of its inputs (the
value part of `get_location`, which does not depend on the filesystem). -/
def computedLocation (b : Backend) (name : Option String) (inProject : Bool) :
    Except Err String :=
  if inProject then Except.ok (b.project.root ++ "/.venv")
  else if truthy name then
    Except.ok (b.project.venvLocation ++ "/" ++ b.project.venvPrefixStr ++ name.getD "")
  else
    (identImpl b).val.map fun idt =>
      b.project.venvLocation ++ "/" ++ b.project.venvPrefixStr ++ idt

/-- One access to the identity or creation logic of an instance. -/
inductive Access
  | ident
  | create (name : Option String) (args : List String)
      (force : Bool) (inProject : Bool)

/-- Perform one access, returning its events and the updated instance
(Python object state persists even when the method raises). -/
def runAccess (w : World) (b : Backend) : Access → List Event × Backend
  | Access.ident => let r := identImpl b; (r.events, r.backend)
  | Access.create n a f ip =>
    let r := Backend.create w b n a f ip
    (r.events, r.backend)

/-- Perform a sequence of accesses on the same instance. -/
def runAccesses (w : World) (b : Backend) : List Access → List Event × Backend
  | [] => ([], b)
  | a :: rest =>
    let p := runAccess w b a
    let q := runAccesses w p.2 rest
    (p.1 ++ q.1, q.2)

/-- Event classifiers. -/
def Event.isQuery : Event → Bool
  | Event.queryResolver _ => true
  | _ => false

def Event.isRun : Event → Bool
  | Event.run _ => true
  | _ => false

def Event.isMkdir : Event → Bool
  | Event.mkdir _ => true
  | _ => false

def Event.isRmtree : Event → Bool
  | Event.rmtree _ => true
  | _ => false

/-- Number of Interpreter Resolver queries in a trace. -/
def countQueries (evs : List Event) : Nat :=
  (evs.filter Event.isQuery).length

/-- The hint of the instance is absent or resolvable by the project. -/
def resolvable (b : Backend) : Prop :=
  truthy b.python = false ∨ b.project.findInterpreters (b.python.getD "") ≠ []

/-- Boolean success test for outcomes. -/
def isOkE {α : Type} : Except Err α → Bool
  | Except.ok _ => true
  | Except.error _ => false

/-- An invariant relating an instance before and after one operation:
the immutable fields are preserved, at most one resolver query happened,
a warm cache suppresses all queries and is kept, and a query from a cold
cache either fails to warm nothing (impossible for resolvable instances)
or leaves the cache warm. -/
def Inv (b bp : Backend) (evs : List Event) : Prop :=
  bp.kind = b.kind ∧ bp.project = b.project ∧ bp.python = b.python ∧
  countQueries evs ≤ 1 ∧
  (b.cache.isSome = true → countQueries evs = 0 ∧ bp.cache = b.cache) ∧
  (b.cache = none → (countQueries evs = 0 ∧ bp.cache = none) ∨ bp.cache.isSome = true)

/-- Maximal number of resolver queries one operation can still perform
given the cache state. -/
def cacheBound : Option PythonInfo → Nat
  | some _ => 0
  | none => 1

/-! Concrete fixtures used by witnesses and counterexamples. -/

/-- A resolvable target interpreter. -/
def pi39 : PythonInfo := ⟨"/usr/bin/python3.9", 3, 9, "cpython-3.9.1"⟩

/-- The project default interpreter. -/
def piDefault : PythonInfo := ⟨"/usr/bin/python3.10", 3, 10, "3.10"⟩

/-- A project whose resolver knows exactly the hint `"3.9"`. -/
def projGood : Project :=
  ⟨"/envs", "proj-", "/proj", piDefault,
    fun h => if h == "3.9" then [pi39] else []⟩

/-- A project whose resolver never finds anything. -/
def projNoRes : Project :=
  ⟨"/envs", "proj-", "/proj", piDefault, fun _ => []⟩

/-- Empty filesystem, every external command succeeds. -/
def wOk : World :=
  ⟨⟨fun _ => false, fun _ => false⟩, "/running/python", fun _ => 0⟩

/-- Only `/envs/proj-x` exists; every external command succeeds. -/
def wBusy : World :=
  ⟨⟨fun p => p == "/envs/proj-x", fun _ => true⟩, "/running/python", fun _ => 0⟩

/-- Only `/envs/proj-3.10` exists; every external command fails. -/
def wCondaBusy : World :=
  ⟨⟨fun p => p == "/envs/proj-3.10", fun _ => true⟩, "/running/python", fun _ => 1⟩

def bVenv : Backend := ⟨BackendKind.venv, projGood, some "3.9", none⟩

def bVirtualenv : Backend := ⟨BackendKind.virtualenv, projGood, some "3.9", none⟩

def bCondaHint : Backend := ⟨BackendKind.conda, projGood, some "3.11", none⟩

def bConda : Backend := ⟨BackendKind.conda, projGood, none, none⟩

def bNoRes : Backend := ⟨BackendKind.venv, projNoRes, some "3.99", none⟩

def bVenvCached : Backend := ⟨BackendKind.venv, projGood, some "3.9", some pi39⟩

def bVirtualenvCached : Backend :=
  ⟨BackendKind.virtualenv, projGood, some "3.9", some pi39⟩

/-! Equation lemmas: each definition, specialised to one control-flow
branch by explicit hypotheses. -/

lemma resolve_cached (b : Backend) (pi : PythonInfo) (hc : b.cache = some pi) :
    resolvedInterpreter b = ⟨[], b, Except.ok pi⟩ := by
  unfold resolvedInterpreter; rw [hc]

lemma resolve_falsy (b : Backend) (hc : b.cache = none)
    (ht : truthy b.python = false) :
    resolvedInterpreter b =
      ⟨[], { b with cache := some b.project.python },
        Except.ok b.project.python⟩ := by
  unfold resolvedInterpreter; rw [hc]; simp [ht]

lemma resolve_hit (b : Backend) (pi : PythonInfo) (rest : List PythonInfo)
    (hc : b.cache = none) (ht : truthy b.python = true)
    (hf : b.project.findInterpreters (b.python.getD "") = pi :: rest) :
    resolvedInterpreter b =
      ⟨[Event.queryResolver (b.python.getD "")], { b with cache := some pi },
        Except.ok pi⟩ := by
  unfold resolvedInterpreter; rw [hc]; simp [ht, hf]

lemma resolve_miss (b : Backend) (hc : b.cache = none)
    (ht : truthy b.python = true)
    (hf : b.project.findInterpreters (b.python.getD "") = []) :
    resolvedInterpreter b =
      ⟨[Event.queryResolver (b.python.getD "")], b,
        Except.error (Err.interpreterNotFound (b.python.getD ""))⟩ := by
  unfold resolvedInterpreter; rw [hc]; simp [ht, hf]

lemma ident_conda_hint (b : Backend) (hk : b.kind = BackendKind.conda)
    (ht : truthy b.python = true) :
    identImpl b = ⟨[], b, Except.ok (b.python.getD "")⟩ := by
  unfold identImpl; rw [hk]; simp [ht]

lemma ident_conda_nohint (b : Backend) (hk : b.kind = BackendKind.conda)
    (ht : truthy b.python = false) : identImpl b = baseIdent b := by
  unfold identImpl; rw [hk]; simp [ht]

lemma ident_not_conda (b : Backend) (hk : b.kind ≠ BackendKind.conda) :
    identImpl b = baseIdent b := by
  unfold identImpl
  rcases hbk : b.kind <;> simp_all

lemma ensure_absent (w : World) (location : String) (force : Bool)
    (h : w.fs.pathExists location = false) :
    ensureClean w location force = ([], Except.ok ()) := by
  unfold ensureClean; simp [h]

lemma ensure_fail (w : World) (location : String)
    (h : w.fs.pathExists location = true) :
    ensureClean w location false =
      ([], Except.error (Err.locationNotEmpty location)) := by
  unfold ensureClean; simp [h]

lemma ensure_forced (w : World) (location : String)
    (h : w.fs.pathExists location = true) :
    ensureClean w location true =
      ([Event.echoWarn ("Cleaning existing target directory " ++ location),
        Event.rmtree location], Except.ok ()) := by
  unfold ensureClean; simp [h]

lemma getLocation_named (w : World) (b : Backend) (name : Option String)
    (ht : truthy name = true) :
    getLocation w b name =
      ⟨if w.fs.isDir b.project.venvLocation then []
        else [Event.mkdir b.project.venvLocation], b,
        Except.ok (b.project.venvLocation ++ "/" ++ b.project.venvPrefixStr ++
          name.getD "")⟩ := by
  unfold getLocation; simp [ht]

lemma getLocation_unnamed (w : World) (b : Backend) (name : Option String)
    (ht : truthy name = false) :
    getLocation w b name =
      ⟨(if w.fs.isDir b.project.venvLocation then []
          else [Event.mkdir b.project.venvLocation]) ++ (identImpl b).events,
        (identImpl b).backend,
        (identImpl b).val.map fun idt =>
          b.project.venvLocation ++ "/" ++ b.project.venvPrefixStr ++ idt⟩ := by
  unfold getLocation; simp [ht]

lemma getLocation_val (w : World) (b : Backend) (name : Option String) :
    (getLocation w b name).val = computedLocation b name false := by
  unfold getLocation computedLocation
  rcases ht : truthy name <;> simp [ht]

lemma condaStep_reject (w : World) (b : Backend) (location : String)
    (args : List String) (pythonVer : String)
    (hargs : args.any (fun a => pyStartsWith a "python=") = true) :
    condaCreateStep w b location args pythonVer =
      ⟨[], b, Except.error
        (Err.usageError "Cannot use python= in conda creation arguments")⟩ := by
  unfold condaCreateStep; simp [hargs]

lemma condaStep_runs (w : World) (b : Backend) (location : String)
    (args : List String) (pythonVer : String)
    (hargs : args.any (fun a => pyStartsWith a "python=") = false) :
    condaCreateStep w b location args pythonVer =
      ⟨[Event.logCmd (condaCmd location pythonVer args),
        Event.run (condaCmd location pythonVer args)], b,
        if w.runExit (condaCmd location pythonVer args) = 0 then Except.ok ()
        else Except.error (Err.creationFailed (condaCmd location pythonVer args)
          (w.runExit (condaCmd location pythonVer args)))⟩ := by
  unfold condaCreateStep subprocessCall; simp [hargs]

lemma perform_virtualenv (w : World) (b : Backend) (location : String)
    (args : List String) (pi : PythonInfo)
    (hk : b.kind = BackendKind.virtualenv)
    (hres : (resolvedInterpreter b).val = Except.ok pi) :
    performCreate w b location args =
      ⟨(resolvedInterpreter b).events ++
        [Event.logCmd (virtualenvCmd w pi location args),
         Event.run (virtualenvCmd w pi location args)],
        (resolvedInterpreter b).backend,
        if w.runExit (virtualenvCmd w pi location args) = 0 then Except.ok ()
        else Except.error (Err.creationFailed (virtualenvCmd w pi location args)
          (w.runExit (virtualenvCmd w pi location args)))⟩ := by
  unfold performCreate subprocessCall; rw [hk]; simp [hres]

lemma perform_venv (w : World) (b : Backend) (location : String)
    (args : List String) (pi : PythonInfo)
    (hk : b.kind = BackendKind.venv)
    (hres : (resolvedInterpreter b).val = Except.ok pi) :
    performCreate w b location args =
      ⟨(resolvedInterpreter b).events ++
        [Event.logCmd (venvCmd pi location args),
         Event.run (venvCmd pi location args)],
        (resolvedInterpreter b).backend,
        if w.runExit (venvCmd pi location args) = 0 then Except.ok ()
        else Except.error (Err.creationFailed (venvCmd pi location args)
          (w.runExit (venvCmd pi location args)))⟩ := by
  unfold performCreate subprocessCall; rw [hk]; simp [hres]

lemma perform_conda_hint (w : World) (b : Backend) (location : String)
    (args : List String) (hk : b.kind = BackendKind.conda)
    (ht : truthy b.python = true) :
    performCreate w b location args =
      condaCreateStep w b location args (b.python.getD "") := by
  unfold performCreate; rw [hk]; simp [ht]

lemma perform_conda_nohint (w : World) (b : Backend) (location : String)
    (args : List String) (pi : PythonInfo) (hk : b.kind = BackendKind.conda)
    (ht : truthy b.python = false)
    (hres : (resolvedInterpreter b).val = Except.ok pi) :
    performCreate w b location args =
      ⟨(resolvedInterpreter b).events ++
        (condaCreateStep w (resolvedInterpreter b).backend location args
          (toString pi.major ++ "." ++ toString pi.minor)).events,
        (condaCreateStep w (resolvedInterpreter b).backend location args
          (toString pi.major ++ "." ++ toString pi.minor)).backend,
        (condaCreateStep w (resolvedInterpreter b).backend location args
          (toString pi.major ++ "." ++ toString pi.minor)).val⟩ := by
  unfold performCreate; rw [hk]; simp [ht, hres]

lemma create_unfold (w : World) (b : Backend) (name : Option String)
    (args : List String) (force : Bool) (inProject : Bool) :
    Backend.create w b name args force inProject =
      (let rloc : Res String :=
        if inProject then ⟨[], b, Except.ok (b.project.root ++ "/.venv")⟩
        else getLocation w b name
      match rloc.val with
      | Except.error e => ⟨rloc.events, rloc.backend, Except.error e⟩
      | Except.ok location =>
        let clean := ensureClean w location force
        match clean.2 with
        | Except.error e => ⟨rloc.events ++ clean.1, rloc.backend, Except.error e⟩
        | Except.ok _ =>
          let rp := performCreate w rloc.backend location args
          ⟨rloc.events ++ clean.1 ++ rp.events, rp.backend,
            rp.val.map fun _ => location⟩) := rfl

/-! Classification lemmas about event traces. -/

lemma query_not_run {e : Event} (h : e.isQuery = true) : e.isRun = false := by
  cases e <;> simp_all [Event.isQuery, Event.isRun]

lemma query_not_rmtree {e : Event} (h : e.isQuery = true) : e.isRmtree = false := by
  cases e <;> simp_all [Event.isQuery, Event.isRmtree]

lemma query_not_mkdir {e : Event} (h : e.isQuery = true) : e.isMkdir = false := by
  cases e <;> simp_all [Event.isQuery, Event.isMkdir]

lemma resolve_events_query (b : Backend) :
    ∀ e ∈ (resolvedInterpreter b).events, e.isQuery = true := by
  intro e he
  rcases hc : b.cache with _ | pi
  · rcases ht : truthy b.python
    · rw [resolve_falsy b hc ht] at he; simp at he
    · rcases hf : b.project.findInterpreters (b.python.getD "") with _ | ⟨pi, rest⟩
      · rw [resolve_miss b hc ht hf] at he
        simp at he; simp [he, Event.isQuery]
      · rw [resolve_hit b pi rest hc ht hf] at he
        simp at he; simp [he, Event.isQuery]
  · rw [resolve_cached b pi hc] at he; simp at he

lemma ident_events_query (b : Backend) :
    ∀ e ∈ (identImpl b).events, e.isQuery = true := by
  intro e he
  by_cases hk : b.kind = BackendKind.conda
  · rcases ht : truthy b.python
    · rw [ident_conda_nohint b hk ht] at he
      exact resolve_events_query b e he
    · rw [ident_conda_hint b hk ht] at he; simp at he
  · rw [ident_not_conda b hk] at he
    exact resolve_events_query b e he

lemma getLocation_events (w : World) (b : Backend) (name : Option String) :
    ∀ e ∈ (getLocation w b name).events,
      e = Event.mkdir b.project.venvLocation ∨ e.isQuery = true := by
  intro e he
  rcases ht : truthy name
  · rw [getLocation_unnamed w b name ht] at he
    simp only [List.mem_append] at he
    rcases he with he | he
    · left
      rcases hd : w.fs.isDir b.project.venvLocation <;> simp_all
    · right; exact ident_events_query b e he
  · rw [getLocation_named w b name ht] at he
    left
    simp only at he
    rcases hd : w.fs.isDir b.project.venvLocation <;> simp_all

lemma ensure_events (w : World) (location : String) (force : Bool) :
    ∀ e ∈ (ensureClean w location force).1,
      e = Event.echoWarn ("Cleaning existing target directory " ++ location) ∨
      e = Event.rmtree location := by
  intro e he
  rcases hp : w.fs.pathExists location
  · rw [ensure_absent w location force hp] at he; simp at he
  · rcases force
    · rw [ensure_fail w location hp] at he; simp at he
    · rw [ensure_forced w location hp] at he
      simpa using he

lemma isOkE_resolve_backend (b : Backend)
    (h : isOkE (resolvedInterpreter b).val = true) :
    ∃ pi, (resolvedInterpreter b).backend.cache = some pi := by
  rcases hc : b.cache with _ | pi
  · rcases ht : truthy b.python
    · rw [resolve_falsy b hc ht]; exact ⟨b.project.python, rfl⟩
    · rcases hf : b.project.findInterpreters (b.python.getD "") with _ | ⟨pi, rest⟩
      · rw [resolve_miss b hc ht hf] at h; simp [isOkE] at h
      · rw [resolve_hit b pi rest hc ht hf]; exact ⟨pi, rfl⟩
  · rw [resolve_cached b pi hc]; exact ⟨pi, hc⟩

lemma resolve_frame (b : Backend) :
    (resolvedInterpreter b).backend.kind = b.kind ∧
    (resolvedInterpreter b).backend.project = b.project ∧
    (resolvedInterpreter b).backend.python = b.python := by
  rcases hc : b.cache with _ | pi
  · rcases ht : truthy b.python
    · rw [resolve_falsy b hc ht]; exact ⟨rfl, rfl, rfl⟩
    · rcases hf : b.project.findInterpreters (b.python.getD "") with _ | ⟨pi, rest⟩
      · rw [resolve_miss b hc ht hf]; exact ⟨rfl, rfl, rfl⟩
      · rw [resolve_hit b pi rest hc ht hf]; exact ⟨rfl, rfl, rfl⟩
  · rw [resolve_cached b pi hc]; exact ⟨rfl, rfl, rfl⟩

lemma ident_frame (b : Backend) :
    (identImpl b).backend.kind = b.kind ∧
    (identImpl b).backend.project = b.project ∧
    (identImpl b).backend.python = b.python := by
  by_cases hk : b.kind = BackendKind.conda
  · rcases ht : truthy b.python
    · rw [ident_conda_nohint b hk ht]; exact resolve_frame b
    · rw [ident_conda_hint b hk ht]; exact ⟨rfl, rfl, rfl⟩
  · rw [ident_not_conda b hk]; exact resolve_frame b

lemma ident_backend_resolve_ok (b : Backend)
    (h : isOkE (resolvedInterpreter b).val = true) :
    isOkE (resolvedInterpreter (identImpl b).backend).val = true := by
  by_cases hk : b.kind = BackendKind.conda
  · rcases ht : truthy b.python
    · rw [ident_conda_nohint b hk ht]
      unfold baseIdent
      obtain ⟨pi, hpi⟩ := isOkE_resolve_backend b h
      rw [resolve_cached _ pi hpi]
      rfl
    · rw [ident_conda_hint b hk ht]; exact h
  · rw [ident_not_conda b hk]
    unfold baseIdent
    obtain ⟨pi, hpi⟩ := isOkE_resolve_backend b h
    rw [resolve_cached _ pi hpi]
    rfl

lemma strlen_append (a b : String) : (a ++ b).length = a.length + b.length :=
  String.length_append a b

lemma append_slash_ne (a s t : String) : a ++ "/" ++ s ++ t ≠ a := by
  intro h
  have hl := congrArg String.length h
  rw [strlen_append, strlen_append, strlen_append] at hl
  have h1 : ("/" : String).length = 1 := rfl
  omega

/-! Create-level equation lemmas. -/

lemma create_inproject (w : World) (b : Backend) (name : Option String)
    (args : List String) (force : Bool) :
    Backend.create w b name args force true =
      afterLocation w [] b (b.project.root ++ "/.venv") args force := rfl

lemma create_located (w : World) (b : Backend) (name : Option String)
    (args : List String) (force : Bool) (loc : String)
    (hval : (getLocation w b name).val = Except.ok loc) :
    Backend.create w b name args force false =
      afterLocation w (getLocation w b name).events (getLocation w b name).backend
        loc args force := by
  rw [create_unfold]
  simp only [Bool.false_eq_true, if_false, hval]
  rfl

lemma create_locfail (w : World) (b : Backend) (name : Option String)
    (args : List String) (force : Bool) (err : Err)
    (hval : (getLocation w b name).val = Except.error err) :
    Backend.create w b name args force false =
      ⟨(getLocation w b name).events, (getLocation w b name).backend,
        Except.error err⟩ := by
  rw [create_unfold]
  simp only [Bool.false_eq_true, if_false, hval]

lemma afterLocation_fail (w : World) (evs : List Event) (b : Backend)
    (location : String) (args : List String)
    (hex : w.fs.pathExists location = true) :
    afterLocation w evs b location args false =
      ⟨evs, b, Except.error (Err.locationNotEmpty location)⟩ := by
  unfold afterLocation
  rw [ensure_fail w location hex]
  simp

lemma afterLocation_absent (w : World) (evs : List Event) (b : Backend)
    (location : String) (args : List String) (force : Bool)
    (hp : w.fs.pathExists location = false) :
    afterLocation w evs b location args force =
      ⟨evs ++ (performCreate w b location args).events,
        (performCreate w b location args).backend,
        (performCreate w b location args).val.map fun _ => location⟩ := by
  unfold afterLocation
  rw [ensure_absent w location force hp]
  simp

lemma afterLocation_forced (w : World) (evs : List Event) (b : Backend)
    (location : String) (args : List String)
    (hex : w.fs.pathExists location = true) :
    afterLocation w evs b location args true =
      ⟨evs ++
        ([Event.echoWarn ("Cleaning existing target directory " ++ location),
           Event.rmtree location] ++ (performCreate w b location args).events),
        (performCreate w b location args).backend,
        (performCreate w b location args).val.map fun _ => location⟩ := by
  unfold afterLocation
  rw [ensure_forced w location hex]
  simp

/-! Claim theorems. -/

/-- Claim C10: for every backend, calling `create` with an explicitly
supplied empty-string name behaves exactly as if no name were supplied
(the location falls back to being named by the ident), because the
name-or-ident choice tests the truthiness of the name, not its presence. -/
theorem empty_name_like_none (w : World) (b : Backend) (args : List String)
    (force : Bool) (inProject : Bool) :
    Backend.create w b (some "") args force inProject =
      Backend.create w b none args force inProject := by
  have h1 := getLocation_unnamed w b (some "") rfl
  have h2 := getLocation_unnamed w b none rfl
  rw [create_unfold, create_unfold, h1, h2]

/-- Claim C6: for the conda strategy, a truthy user-supplied raw
interpreter hint is used verbatim as the ident and the Interpreter
Resolver is not consulted (no events, no state change); with no hint,
the ident falls back to the identifier of the resolved descriptor. -/
theorem conda_ident_verbatim (b : Backend) (hk : b.kind = BackendKind.conda) :
    (truthy b.python = true →
      identImpl b = ⟨[], b, Except.ok (b.python.getD "")⟩) ∧
    (truthy b.python = false →
      identImpl b =
        ⟨(resolvedInterpreter b).events, (resolvedInterpreter b).backend,
          (resolvedInterpreter b).val.map PythonInfo.identifier⟩) := by
  constructor
  · intro ht; exact ident_conda_hint b hk ht
  · intro ht; rw [ident_conda_nohint b hk ht]; rfl

/-- Witness for C6 at the example of the spec: hint `"3.11"` yields the
ident `"3.11"` exactly, with no resolver activity. -/
theorem conda_ident_verbatim_witness :
    identImpl bCondaHint = ⟨[], bCondaHint, Except.ok "3.11"⟩ :=
  (conda_ident_verbatim bCondaHint rfl).1 rfl

/-- Claim C7: the venv (built-in tool) strategy produces exactly the
command `[target-executable, "-m", "venv", location] ++ args`, beginning
with the resolved target interpreter and not the own interpreter of the
running process. -/
theorem venv_command_shape (w : World) (b : Backend) (location : String)
    (args : List String) (pi : PythonInfo)
    (hk : b.kind = BackendKind.venv)
    (hres : (resolvedInterpreter b).val = Except.ok pi) :
    (performCreate w b location args).events =
      (resolvedInterpreter b).events ++
        [Event.logCmd (venvCmd pi location args),
         Event.run (venvCmd pi location args)] ∧
    venvCmd pi location args = [pi.executable, "-m", "venv", location] ++ args ∧
    (venvCmd pi location args).head? = some pi.executable ∧
    (pi.executable ≠ w.sysExecutable →
      (venvCmd pi location args).head? ≠ some w.sysExecutable) := by
  refine ⟨?_, rfl, rfl, ?_⟩
  · rw [perform_venv w b location args pi hk hres]
  · intro hne h
    simp only [venvCmd, List.cons_append, List.head?_cons, Option.some.injEq] at h
    exact hne h

/-- Witness for C7: with resolved target `/usr/bin/python3.9`, the venv
backend runs `[/usr/bin/python3.9, -m, venv, <location>]`. -/
theorem venv_command_shape_witness :
    (performCreate wOk bVenvCached "/envs/proj-cpython-3.9.1" []).events =
      (resolvedInterpreter bVenvCached).events ++
        [Event.logCmd (venvCmd pi39 "/envs/proj-cpython-3.9.1" []),
         Event.run (venvCmd pi39 "/envs/proj-cpython-3.9.1" [])] :=
  (venv_command_shape wOk bVenvCached "/envs/proj-cpython-3.9.1" [] pi39 rfl rfl).1

/-- Claim C8: the virtualenv (third-party tool) strategy produces
exactly the command
`[running-interpreter, "-m", "virtualenv", location, "-p",
target-executable] ++ args`, driven by the own interpreter of the
running process regardless of the interpreter being provisioned. -/
theorem virtualenv_command_shape (w : World) (b : Backend) (location : String)
    (args : List String) (pi : PythonInfo)
    (hk : b.kind = BackendKind.virtualenv)
    (hres : (resolvedInterpreter b).val = Except.ok pi) :
    (performCreate w b location args).events =
      (resolvedInterpreter b).events ++
        [Event.logCmd (virtualenvCmd w pi location args),
         Event.run (virtualenvCmd w pi location args)] ∧
    virtualenvCmd w pi location args =
      [w.sysExecutable, "-m", "virtualenv", location, "-p", pi.executable] ++ args ∧
    (virtualenvCmd w pi location args).head? = some w.sysExecutable := by
  refine ⟨?_, rfl, rfl⟩
  rw [perform_virtualenv w b location args pi hk hres]

/-- Witness for C8: the virtualenv backend command starts with the
running interpreter and pins the target with `-p /usr/bin/python3.9`. -/
theorem virtualenv_command_shape_witness :
    (performCreate wOk bVirtualenvCached "/envs/proj-cpython-3.9.1" ["--seed"]).events =
      (resolvedInterpreter bVirtualenvCached).events ++
        [Event.logCmd (virtualenvCmd wOk pi39 "/envs/proj-cpython-3.9.1" ["--seed"]),
         Event.run (virtualenvCmd wOk pi39 "/envs/proj-cpython-3.9.1" ["--seed"])] :=
  (virtualenv_command_shape wOk bVirtualenvCached "/envs/proj-cpython-3.9.1"
    ["--seed"] pi39 rfl rfl).1

lemma computedLocation_shape (b : Backend) (name : Option String) (loc : String)
    (h : computedLocation b name false = Except.ok loc) :
    ∃ s, loc = b.project.venvLocation ++ "/" ++ b.project.venvPrefixStr ++ s := by
  unfold computedLocation at h
  simp only [Bool.false_eq_true, if_false] at h
  split at h
  · exact ⟨name.getD "", by injection h with h2; exact h2.symm⟩
  · rcases hi : (identImpl b).val with e | idt
    · rw [hi] at h; simp [Except.map] at h
    · rw [hi] at h
      simp only [Except.map] at h
      exact ⟨idt, by injection h with h2; exact h2.symm⟩

lemma computedLocation_inproject (b : Backend) (name : Option String)
    (loc : String) (h : computedLocation b name true = Except.ok loc) :
    loc = b.project.root ++ "/.venv" := by
  unfold computedLocation at h
  simp only [if_true] at h
  injection h with h2
  exact h2.symm

/-- Claim C1: for every backend and every existing target location,
`create` with `force = false` fails with the location-not-empty error,
deletes nothing (no `rmtree`), does not touch the location (no `mkdir`
of it), and invokes no creation command. -/
theorem create_existing_noforce_fails (w : World) (b : Backend)
    (name : Option String) (args : List String) (inProject : Bool) (loc : String)
    (hloc : computedLocation b name inProject = Except.ok loc)
    (hex : w.fs.pathExists loc = true) :
    (Backend.create w b name args false inProject).val =
      Except.error (Err.locationNotEmpty loc) ∧
    ∀ e ∈ (Backend.create w b name args false inProject).events,
      e.isRun = false ∧ e.isRmtree = false ∧ e ≠ Event.mkdir loc := by
  cases inProject
  case false =>
    have hval : (getLocation w b name).val = Except.ok loc := by
      rw [getLocation_val]; exact hloc
    rw [create_located w b name args false loc hval,
      afterLocation_fail w _ _ loc args hex]
    refine ⟨rfl, ?_⟩
    intro e he
    simp only at he
    rcases getLocation_events w b name e he with h | h
    · subst h
      refine ⟨rfl, rfl, ?_⟩
      intro hcontra
      injection hcontra with hpl
      obtain ⟨s, hs⟩ := computedLocation_shape b name loc hloc
      exact append_slash_ne b.project.venvLocation b.project.venvPrefixStr s
        (by rw [← hs, hpl])
    · refine ⟨query_not_run h, query_not_rmtree h, ?_⟩
      intro hc
      subst hc
      simp [Event.isQuery] at h
  case true =>
    have hl : loc = b.project.root ++ "/.venv" :=
      computedLocation_inproject b name loc hloc
    subst hl
    rw [create_inproject, afterLocation_fail w [] b _ args hex]
    exact ⟨rfl, fun e he => absurd he (List.not_mem_nil e)⟩

/-- Witness for C1: the venv backend refuses to create over the
existing `/envs/proj-x` without force and performs nothing. -/
theorem create_existing_noforce_fails_witness :
    (Backend.create wBusy bVenv (some "x") [] false false).val =
      Except.error (Err.locationNotEmpty "/envs/proj-x") ∧
    ∀ e ∈ (Backend.create wBusy bVenv (some "x") [] false false).events,
      e.isRun = false ∧ e.isRmtree = false ∧ e ≠ Event.mkdir "/envs/proj-x" :=
  create_existing_noforce_fails wBusy bVenv (some "x") [] false "/envs/proj-x"
    rfl rfl

/-- Claim C2: for every backend and every existing target location,
`create` with `force = true` emits the warning notice and then the
recursive deletion of the location, strictly before any creation
command is run: the trace splits as
`pre ++ [warning, rmtree] ++ post` with no run (and no other deletion)
in `pre`. -/
theorem create_force_deletes_before_command (w : World) (b : Backend)
    (name : Option String) (args : List String) (inProject : Bool) (loc : String)
    (hloc : computedLocation b name inProject = Except.ok loc)
    (hex : w.fs.pathExists loc = true) :
    ∃ pre post,
      (Backend.create w b name args true inProject).events =
        pre ++ ([Event.echoWarn ("Cleaning existing target directory " ++ loc),
                  Event.rmtree loc] ++ post) ∧
      ∀ e ∈ pre, e.isRun = false ∧ e.isRmtree = false := by
  cases inProject
  case false =>
    have hval : (getLocation w b name).val = Except.ok loc := by
      rw [getLocation_val]; exact hloc
    rw [create_located w b name args true loc hval,
      afterLocation_forced w _ _ loc args hex]
    refine ⟨(getLocation w b name).events,
      (performCreate w (getLocation w b name).backend loc args).events, rfl, ?_⟩
    intro e he
    rcases getLocation_events w b name e he with h | h
    · subst h; exact ⟨rfl, rfl⟩
    · exact ⟨query_not_run h, query_not_rmtree h⟩
  case true =>
    have hl : loc = b.project.root ++ "/.venv" :=
      computedLocation_inproject b name loc hloc
    subst hl
    rw [create_inproject, afterLocation_forced w [] b _ args hex]
    exact ⟨[], (performCreate w b (b.project.root ++ "/.venv") args).events,
      rfl, fun e he => absurd he (List.not_mem_nil e)⟩

/-- Witness for C2: forced creation over the existing `/envs/proj-x`
warns, deletes it, and only then runs the creation command. -/
theorem create_force_deletes_before_command_witness :
    ∃ pre post,
      (Backend.create wBusy bVenv (some "x") [] true false).events =
        pre ++ ([Event.echoWarn ("Cleaning existing target directory /envs/proj-x"),
                  Event.rmtree "/envs/proj-x"] ++ post) ∧
      ∀ e ∈ pre, e.isRun = false ∧ e.isRmtree = false :=
  create_force_deletes_before_command wBusy bVenv (some "x") [] false
    "/envs/proj-x" rfl rfl

/-! More equation and classification lemmas, for the remaining claims. -/

lemma perform_virtualenv_err (w : World) (b : Backend) (location : String)
    (args : List String) (er : Err) (hk : b.kind = BackendKind.virtualenv)
    (hres : (resolvedInterpreter b).val = Except.error er) :
    performCreate w b location args =
      ⟨(resolvedInterpreter b).events, (resolvedInterpreter b).backend,
        Except.error er⟩ := by
  unfold performCreate; rw [hk]; simp [hres]

lemma perform_venv_err (w : World) (b : Backend) (location : String)
    (args : List String) (er : Err) (hk : b.kind = BackendKind.venv)
    (hres : (resolvedInterpreter b).val = Except.error er) :
    performCreate w b location args =
      ⟨(resolvedInterpreter b).events, (resolvedInterpreter b).backend,
        Except.error er⟩ := by
  unfold performCreate; rw [hk]; simp [hres]

lemma perform_conda_nohint_err (w : World) (b : Backend) (location : String)
    (args : List String) (er : Err) (hk : b.kind = BackendKind.conda)
    (ht : truthy b.python = false)
    (hres : (resolvedInterpreter b).val = Except.error er) :
    performCreate w b location args =
      ⟨(resolvedInterpreter b).events, (resolvedInterpreter b).backend,
        Except.error er⟩ := by
  unfold performCreate; rw [hk]; simp [ht, hres]

lemma condaStep_events (w : World) (b : Backend) (location : String)
    (args : List String) (pythonVer : String) :
    ∀ e ∈ (condaCreateStep w b location args pythonVer).events,
      (∃ c, e = Event.logCmd c) ∨ (∃ c, e = Event.run c) := by
  intro e he
  rcases ha : args.any (fun a => pyStartsWith a "python=")
  · rw [condaStep_runs w b location args pythonVer ha] at he
    simp only [List.mem_cons, List.not_mem_nil, or_false] at he
    rcases he with he | he
    · exact Or.inl ⟨_, he⟩
    · exact Or.inr ⟨_, he⟩
  · rw [condaStep_reject w b location args pythonVer ha] at he
    simp at he

lemma perform_events_class (w : World) (b : Backend) (location : String)
    (args : List String) :
    ∀ e ∈ (performCreate w b location args).events,
      e.isQuery = true ∨ (∃ c, e = Event.logCmd c) ∨ (∃ c, e = Event.run c) := by
  intro e he
  rcases hbk : b.kind
  case virtualenv =>
    rcases hres : (resolvedInterpreter b).val with er | pi
    · rw [perform_virtualenv_err w b location args er hbk hres] at he
      exact Or.inl (resolve_events_query b e he)
    · rw [perform_virtualenv w b location args pi hbk hres] at he
      simp only [List.mem_append, List.mem_cons, List.not_mem_nil, or_false] at he
      rcases he with he | he | he
      · exact Or.inl (resolve_events_query b e he)
      · exact Or.inr (Or.inl ⟨_, he⟩)
      · exact Or.inr (Or.inr ⟨_, he⟩)
  case venv =>
    rcases hres : (resolvedInterpreter b).val with er | pi
    · rw [perform_venv_err w b location args er hbk hres] at he
      exact Or.inl (resolve_events_query b e he)
    · rw [perform_venv w b location args pi hbk hres] at he
      simp only [List.mem_append, List.mem_cons, List.not_mem_nil, or_false] at he
      rcases he with he | he | he
      · exact Or.inl (resolve_events_query b e he)
      · exact Or.inr (Or.inl ⟨_, he⟩)
      · exact Or.inr (Or.inr ⟨_, he⟩)
  case conda =>
    rcases ht : truthy b.python
    · rcases hres : (resolvedInterpreter b).val with er | pi
      · rw [perform_conda_nohint_err w b location args er hbk ht hres] at he
        exact Or.inl (resolve_events_query b e he)
      · rw [perform_conda_nohint w b location args pi hbk ht hres] at he
        simp only [List.mem_append] at he
        rcases he with he | he
        · exact Or.inl (resolve_events_query b e he)
        · exact Or.inr (condaStep_events w _ location args _ e he)
    · rw [perform_conda_hint w b location args hbk ht] at he
      exact Or.inr (condaStep_events w b location args _ e he)

lemma perform_no_mkdir (w : World) (b : Backend) (location : String)
    (args : List String) :
    ∀ e ∈ (performCreate w b location args).events, e.isMkdir = false := by
  intro e he
  rcases perform_events_class w b location args e he with h | ⟨c, h⟩ | ⟨c, h⟩
  · exact query_not_mkdir h
  · simp [h, Event.isMkdir]
  · simp [h, Event.isMkdir]

lemma afterLocation_events_split (w : World) (evs : List Event) (b : Backend)
    (location : String) (args : List String) (force : Bool) :
    ∀ e ∈ (afterLocation w evs b location args force).events,
      e ∈ evs ∨ e ∈ (ensureClean w location force).1 ∨
        e ∈ (performCreate w b location args).events := by
  intro e he
  unfold afterLocation at he
  split at he <;> simp only [List.mem_append] at he <;> tauto

lemma afterLocation_events_sub (w : World) (evs : List Event) (b : Backend)
    (location : String) (args : List String) (force : Bool) :
    ∀ e ∈ evs, e ∈ (afterLocation w evs b location args force).events := by
  intro e he
  unfold afterLocation
  split <;> simp [List.mem_append, he]

lemma afterLocation_val_ok (w : World) (evs : List Event) (b : Backend)
    (location : String) (args : List String) (force : Bool) (loc2 : String)
    (h : (afterLocation w evs b location args force).val = Except.ok loc2) :
    loc2 = location := by
  unfold afterLocation at h
  split at h
  · simp at h
  · simp only at h
    rcases hp : (performCreate w b location args).val with er | u
    · rw [hp] at h; simp [Except.map] at h
    · rw [hp] at h; simp only [Except.map, Except.ok.injEq] at h; exact h.symm

lemma getLocation_mkdir_iff (w : World) (b : Backend) (name : Option String) :
    Event.mkdir b.project.venvLocation ∈ (getLocation w b name).events ↔
      w.fs.isDir b.project.venvLocation = false := by
  constructor
  · intro hm
    rcases hd : w.fs.isDir b.project.venvLocation
    · rfl
    · exfalso
      rcases ht : truthy name
      · rw [getLocation_unnamed w b name ht] at hm
        simp only [hd, if_true, List.nil_append] at hm
        have := ident_events_query b _ hm
        simp [Event.isQuery] at this
      · rw [getLocation_named w b name ht] at hm
        simp [hd] at hm
  · intro hd
    rcases ht : truthy name
    · rw [getLocation_unnamed w b name ht]
      simp [hd]
    · rw [getLocation_named w b name ht]
      simp [hd]

lemma getLocation_frame (w : World) (b : Backend) (name : Option String) :
    (getLocation w b name).backend.kind = b.kind ∧
    (getLocation w b name).backend.project = b.project ∧
    (getLocation w b name).backend.python = b.python := by
  rcases ht : truthy name
  · rw [getLocation_unnamed w b name ht]
    exact ident_frame b
  · rw [getLocation_named w b name ht]
    exact ⟨rfl, rfl, rfl⟩

/-- Claim C9: for every backend, the location `create` uses is the
fixed in-project path `root/.venv` when `in_project` is true and
otherwise `parent / (prefix ++ (name-or-ident))`; on success `create`
returns exactly this location, and the parent directory is created
(`mkdir`, directories only) exactly when the in-project path is not
taken and the parent is not already a directory. -/
theorem create_location_formula (w : World) (b : Backend) (name : Option String)
    (args : List String) (force : Bool) (inProject : Bool) (loc : String)
    (hok : (Backend.create w b name args force inProject).val = Except.ok loc) :
    computedLocation b name inProject = Except.ok loc ∧
    (Event.mkdir b.project.venvLocation ∈
        (Backend.create w b name args force inProject).events ↔
      (inProject = false ∧ w.fs.isDir b.project.venvLocation = false)) := by
  cases inProject
  case true =>
    rw [create_inproject] at hok ⊢
    have hl := afterLocation_val_ok w [] b _ args force loc hok
    subst hl
    refine ⟨by unfold computedLocation; simp, ?_⟩
    simp only [Bool.true_eq_false, false_and, iff_false]
    intro hm
    rcases afterLocation_events_split w [] b _ args force _ hm with h | h | h
    · simp at h
    · rcases ensure_events w _ force _ h with h2 | h2 <;> simp at h2
    · have := perform_no_mkdir w b _ args _ h
      simp [Event.isMkdir] at this
  case false =>
    rcases hgl : (getLocation w b name).val with er | loc2
    · rw [create_locfail w b name args force er hgl] at hok
      simp at hok
    · rw [create_located w b name args force loc2 hgl] at hok ⊢
      have hl := afterLocation_val_ok w _ _ loc2 args force loc hok
      subst hl
      constructor
      · rw [← getLocation_val]; exact hgl
      · simp only [true_and]
        constructor
        · intro hm
          rcases afterLocation_events_split w _ _ loc args force _ hm with h | h | h
          · exact (getLocation_mkdir_iff w b name).1 h
          · rcases ensure_events w loc force _ h with h2 | h2 <;> simp at h2
          · have := perform_no_mkdir w _ loc args _ h
            simp [Event.isMkdir] at this
        · intro hd
          exact afterLocation_events_sub w _ _ loc args force _
            ((getLocation_mkdir_iff w b name).2 hd)

/-- Witness for C9: a successful venv creation with no explicit name
lands at `/envs/proj-cpython-3.9.1` and creates the parent `/envs`. -/
theorem create_location_formula_witness :
    computedLocation bVenv none false = Except.ok "/envs/proj-cpython-3.9.1" ∧
    (Event.mkdir bVenv.project.venvLocation ∈
        (Backend.create wOk bVenv none [] false false).events ↔
      (false = false ∧ wOk.fs.isDir bVenv.project.venvLocation = false)) :=
  create_location_formula wOk bVenv none [] false false "/envs/proj-cpython-3.9.1"
    rfl

lemma conda_resolve_ok (b : Backend) (ht : truthy b.python = false) :
    ∃ pi, (resolvedInterpreter b).val = Except.ok pi := by
  rcases hc : b.cache with _ | pi
  · rw [resolve_falsy b hc ht]; exact ⟨b.project.python, rfl⟩
  · rw [resolve_cached b pi hc]; exact ⟨pi, rfl⟩

lemma conda_perform_usage (w : World) (b : Backend) (location : String)
    (args : List String) (hk : b.kind = BackendKind.conda)
    (hargs : args.any (fun a => pyStartsWith a "python=") = true) :
    (performCreate w b location args).val =
      Except.error (Err.usageError "Cannot use python= in conda creation arguments") ∧
    ∀ e ∈ (performCreate w b location args).events, e.isQuery = true := by
  rcases ht : truthy b.python
  · obtain ⟨pi, hres⟩ := conda_resolve_ok b ht
    rw [perform_conda_nohint w b location args pi hk ht hres,
      condaStep_reject w _ location args _ hargs]
    refine ⟨rfl, ?_⟩
    intro e he
    simp only [List.append_nil] at he
    exact resolve_events_query b e he
  · rw [perform_conda_hint w b location args hk ht,
      condaStep_reject w b location args _ hargs]
    exact ⟨rfl, fun e he => absurd he (List.not_mem_nil e)⟩

/-- Counterexample for C3 as stated: the conda strategy with a
`python=` extra argument, invoked through `create` against an already
occupied target location without `force`, fails with the
location-not-empty error (raised by the pre-creation check), not with
`UsageError`. -/
theorem conda_python_arg_preempted_cex :
    (["python=3.8"].any (fun a => pyStartsWith a "python=")) = true ∧
    (Backend.create wCondaBusy bConda none ["python=3.8"] false false).val =
      Except.error (Err.locationNotEmpty "/envs/proj-3.10") ∧
    Err.locationNotEmpty "/envs/proj-3.10" ≠
      Err.usageError "Cannot use python= in conda creation arguments" := by
  refine ⟨by decide, rfl, ?_⟩
  intro h
  exact Err.noConfusion h

/-- Claim C3, amended: for the conda strategy, whenever an extra
argument starts with `python=`, `create` never invokes an external
process and never succeeds; it fails with `UsageError` provided the
pre-creation location check passes (the target is absent or `force` is
given) — otherwise the location-not-empty error preempts it. -/
theorem conda_python_arg_amended (w : World) (b : Backend) (name : Option String)
    (args : List String) (force : Bool) (inProject : Bool)
    (hk : b.kind = BackendKind.conda)
    (hargs : args.any (fun a => pyStartsWith a "python=") = true) :
    (∀ e ∈ (Backend.create w b name args force inProject).events,
      e.isRun = false) ∧
    isOkE (Backend.create w b name args force inProject).val = false ∧
    (∀ loc, computedLocation b name inProject = Except.ok loc →
      w.fs.pathExists loc = false ∨ force = true →
      (Backend.create w b name args force inProject).val =
        Except.error
          (Err.usageError "Cannot use python= in conda creation arguments")) := by
  have husage : ∀ (bk : Backend) (loc : String), bk.kind = BackendKind.conda →
      (performCreate w bk loc args).val =
        Except.error (Err.usageError "Cannot use python= in conda creation arguments") ∧
      ∀ e ∈ (performCreate w bk loc args).events, e.isQuery = true :=
    fun bk loc hbk => conda_perform_usage w bk loc args hbk hargs
  refine ⟨?_, ?_, ?_⟩
  · intro e he
    cases inProject
    case false =>
      rcases hgl : (getLocation w b name).val with er | loc2
      · rw [create_locfail w b name args force er hgl] at he
        rcases getLocation_events w b name e he with h | h
        · simp [h, Event.isRun]
        · exact query_not_run h
      · rw [create_located w b name args force loc2 hgl] at he
        rcases afterLocation_events_split w _ _ loc2 args force e he with h | h | h
        · rcases getLocation_events w b name e h with h2 | h2
          · simp [h2, Event.isRun]
          · exact query_not_run h2
        · rcases ensure_events w loc2 force e h with h2 | h2 <;>
            simp [h2, Event.isRun]
        · exact query_not_run
            ((husage _ loc2 ((getLocation_frame w b name).1.trans hk)).2 e h)
    case true =>
      rw [create_inproject] at he
      rcases afterLocation_events_split w [] b _ args force e he with h | h | h
      · simp at h
      · rcases ensure_events w _ force e h with h2 | h2 <;> simp [h2, Event.isRun]
      · exact query_not_run ((husage b _ hk).2 e h)
  · cases inProject
    case false =>
      rcases hgl : (getLocation w b name).val with er | loc2
      · rw [create_locfail w b name args force er hgl]; rfl
      · rw [create_located w b name args force loc2 hgl]
        unfold afterLocation
        split
        · rfl
        · rw [(husage _ loc2 ((getLocation_frame w b name).1.trans hk)).1]; rfl
    case true =>
      rw [create_inproject]
      unfold afterLocation
      split
      · rfl
      · rw [(husage b _ hk).1]; rfl
  · intro loc hloc hclean
    cases inProject
    case false =>
      have hval : (getLocation w b name).val = Except.ok loc := by
        rw [getLocation_val]; exact hloc
      rw [create_located w b name args force loc hval]
      have hperf := (husage _ loc ((getLocation_frame w b name).1.trans hk)).1
      rcases hp : w.fs.pathExists loc
      · rw [afterLocation_absent w _ _ loc args force hp, hperf]
        rfl
      · have hf : force = true := by
          rcases hclean with h | h
          · rw [hp] at h; exact absurd h (by simp)
          · exact h
        subst hf
        rw [afterLocation_forced w _ _ loc args hp, hperf]
        rfl
    case true =>
      have hl : loc = b.project.root ++ "/.venv" :=
        computedLocation_inproject b name loc hloc
      subst hl
      rw [create_inproject]
      have hperf := (husage b (b.project.root ++ "/.venv") hk).1
      rcases hp : w.fs.pathExists (b.project.root ++ "/.venv")
      · rw [afterLocation_absent w [] b _ args force hp, hperf]
        rfl
      · have hf : force = true := by
          rcases hclean with h | h
          · rw [hp] at h; exact absurd h (by simp)
          · exact h
        subst hf
        rw [afterLocation_forced w [] b _ args hp, hperf]
        rfl

/-- Witness for the amended C3: with the location check passing (empty
filesystem), the conda strategy rejects `python=3.8` with `UsageError`
and runs nothing. -/
theorem conda_python_arg_amended_witness :
    (∀ e ∈ (Backend.create wOk bConda none ["python=3.8"] false false).events,
      e.isRun = false) ∧
    isOkE (Backend.create wOk bConda none ["python=3.8"] false false).val = false ∧
    (∀ loc, computedLocation bConda none false = Except.ok loc →
      wOk.fs.pathExists loc = false ∨ false = true →
      (Backend.create wOk bConda none ["python=3.8"] false false).val =
        Except.error
          (Err.usageError "Cannot use python= in conda creation arguments")) :=
  conda_python_arg_amended wOk bConda none ["python=3.8"] false false rfl
    (by decide)

lemma mkdir_ne_of_isMkdir_false {e : Event} (h : e.isMkdir = false)
    (p : String) : e ≠ Event.mkdir p := by
  intro hc
  subst hc
  simp [Event.isMkdir] at h

lemma getLocation_backend_resolve_ok (w : World) (b : Backend)
    (name : Option String) (h : isOkE (resolvedInterpreter b).val = true) :
    isOkE (resolvedInterpreter (getLocation w b name).backend).val = true := by
  rcases ht : truthy name
  · rw [getLocation_unnamed w b name ht]
    exact ident_backend_resolve_ok b h
  · rw [getLocation_named w b name ht]
    exact h

lemma perform_run (w : World) (b : Backend) (location : String)
    (args : List String)
    (hres : isOkE (resolvedInterpreter b).val = true)
    (hargs : b.kind = BackendKind.conda →
      args.any (fun a => pyStartsWith a "python=") = false) :
    ∃ c evs bk,
      performCreate w b location args =
        ⟨evs ++ [Event.logCmd c, Event.run c], bk,
          if w.runExit c = 0 then Except.ok ()
          else Except.error (Err.creationFailed c (w.runExit c))⟩ ∧
      ∀ e ∈ evs, e.isQuery = true := by
  rcases hbk : b.kind
  case virtualenv =>
    rcases hv : (resolvedInterpreter b).val with er | pi
    · rw [hv] at hres; simp [isOkE] at hres
    · exact ⟨virtualenvCmd w pi location args, (resolvedInterpreter b).events,
        (resolvedInterpreter b).backend,
        perform_virtualenv w b location args pi hbk hv, resolve_events_query b⟩
  case venv =>
    rcases hv : (resolvedInterpreter b).val with er | pi
    · rw [hv] at hres; simp [isOkE] at hres
    · exact ⟨venvCmd pi location args, (resolvedInterpreter b).events,
        (resolvedInterpreter b).backend,
        perform_venv w b location args pi hbk hv, resolve_events_query b⟩
  case conda =>
    have ha := hargs hbk
    rcases ht : truthy b.python
    · rcases hv : (resolvedInterpreter b).val with er | pi
      · rw [hv] at hres; simp [isOkE] at hres
      · refine ⟨condaCmd location (toString pi.major ++ "." ++ toString pi.minor)
          args, (resolvedInterpreter b).events, (resolvedInterpreter b).backend,
          ?_, resolve_events_query b⟩
        rw [perform_conda_nohint w b location args pi hbk ht hv,
          condaStep_runs w _ location args _ ha]
    · refine ⟨condaCmd location (b.python.getD "") args, [], b, ?_, by simp⟩
      rw [perform_conda_hint w b location args hbk ht,
        condaStep_runs w b location args _ ha]
      simp

/-- Claim C5: for every backend, a non-zero exit of the creation
command makes `create` fail with the creation-failed error wrapping the
process error (command and exit code); when this follows a forced
deletion of a pre-existing location, the trace ends with the failing
command, the deletion stays in the prefix, and nothing recreates the
location afterwards (no rollback, no `mkdir` of the location at all). -/
theorem creation_failure_after_forced_delete (w : World) (b : Backend)
    (name : Option String) (args : List String) (inProject : Bool) (loc : String)
    (hloc : computedLocation b name inProject = Except.ok loc)
    (hex : w.fs.pathExists loc = true)
    (hres : isOkE (resolvedInterpreter b).val = true)
    (hargs : b.kind = BackendKind.conda →
      args.any (fun a => pyStartsWith a "python=") = false)
    (hrun : ∀ c, w.runExit c ≠ 0) :
    ∃ c pre,
      (Backend.create w b name args true inProject).events =
        pre ++ [Event.logCmd c, Event.run c] ∧
      Event.rmtree loc ∈ pre ∧
      (Backend.create w b name args true inProject).val =
        Except.error (Err.creationFailed c (w.runExit c)) ∧
      ∀ e ∈ (Backend.create w b name args true inProject).events,
        e ≠ Event.mkdir loc := by
  cases inProject
  case true =>
    have hl : loc = b.project.root ++ "/.venv" :=
      computedLocation_inproject b name loc hloc
    subst hl
    rw [create_inproject, afterLocation_forced w [] b _ args hex]
    obtain ⟨c, evs, bk, hpc, hq⟩ :=
      perform_run w b (b.project.root ++ "/.venv") args hres hargs
    rw [hpc]
    refine ⟨c, [Event.echoWarn ("Cleaning existing target directory " ++
      (b.project.root ++ "/.venv")), Event.rmtree (b.project.root ++ "/.venv")]
      ++ evs, ?_, ?_, ?_, ?_⟩
    · simp
    · simp
    · simp only
      rw [if_neg (hrun c)]
      rfl
    · intro e he
      simp only [List.nil_append, List.mem_append, List.mem_cons,
        List.not_mem_nil, or_false] at he
      rcases he with (h | h) | (h | h | h)
      · subst h; intro hc; exact Event.noConfusion hc
      · subst h; intro hc; exact Event.noConfusion hc
      · exact mkdir_ne_of_isMkdir_false (query_not_mkdir (hq e h)) _
      · subst h; intro hc; exact Event.noConfusion hc
      · subst h; intro hc; exact Event.noConfusion hc
  case false =>
    have hval : (getLocation w b name).val = Except.ok loc := by
      rw [getLocation_val]; exact hloc
    rw [create_located w b name args true loc hval,
      afterLocation_forced w _ _ loc args hex]
    have hres2 := getLocation_backend_resolve_ok w b name hres
    have hargs2 : (getLocation w b name).backend.kind = BackendKind.conda →
        args.any (fun a => pyStartsWith a "python=") = false := by
      intro hkc
      exact hargs (by rw [← (getLocation_frame w b name).1]; exact hkc)
    obtain ⟨c, evs, bk, hpc, hq⟩ :=
      perform_run w (getLocation w b name).backend loc args hres2 hargs2
    rw [hpc]
    obtain ⟨s, hs⟩ := computedLocation_shape b name loc hloc
    refine ⟨c, (getLocation w b name).events ++
      ([Event.echoWarn ("Cleaning existing target directory " ++ loc),
        Event.rmtree loc] ++ evs), ?_, ?_, ?_, ?_⟩
    · simp
    · simp
    · simp only
      rw [if_neg (hrun c)]
      rfl
    · intro e he
      simp only [List.mem_append, List.mem_cons, List.not_mem_nil,
        or_false] at he
      rcases he with h | (h | h) | (h | h | h)
      · rcases getLocation_events w b name e h with h2 | h2
        · subst h2
          intro hc
          injection hc with h3
          exact append_slash_ne b.project.venvLocation b.project.venvPrefixStr s
            (by rw [← hs, h3])
        · exact mkdir_ne_of_isMkdir_false (query_not_mkdir h2) _
      · subst h; intro hc; exact Event.noConfusion hc
      · subst h; intro hc; exact Event.noConfusion hc
      · exact mkdir_ne_of_isMkdir_false (query_not_mkdir (hq e h)) _
      · subst h; intro hc; exact Event.noConfusion hc
      · subst h; intro hc; exact Event.noConfusion hc

/-- Witness for C5: forced conda recreation over the existing
`/envs/proj-3.10` deletes it, then the conda command fails (exit 1) and
the location is not restored. -/
theorem creation_failure_after_forced_delete_witness :
    ∃ c pre,
      (Backend.create wCondaBusy bConda none [] true false).events =
        pre ++ [Event.logCmd c, Event.run c] ∧
      Event.rmtree "/envs/proj-3.10" ∈ pre ∧
      (Backend.create wCondaBusy bConda none [] true false).val =
        Except.error (Err.creationFailed c (wCondaBusy.runExit c)) ∧
      ∀ e ∈ (Backend.create wCondaBusy bConda none [] true false).events,
        e ≠ Event.mkdir "/envs/proj-3.10" :=
  creation_failure_after_forced_delete wCondaBusy bConda none [] false
    "/envs/proj-3.10" rfl rfl rfl (fun h => rfl) (fun c => (by decide : (1 : Int) ≠ 0))

/-! Memoization invariant machinery. -/

lemma countQueries_append (a b : List Event) :
    countQueries (a ++ b) = countQueries a + countQueries b := by
  simp [countQueries, List.filter_append]

lemma inv_pure (b : Backend) (evs : List Event) (h : countQueries evs = 0) :
    Inv b b evs :=
  ⟨rfl, rfl, rfl, by omega, fun _ => ⟨h, rfl⟩, fun hc => Or.inl ⟨h, hc⟩⟩

lemma inv_comp {b b1 b2 : Backend} {e1 e2 : List Event}
    (h1 : Inv b b1 e1) (h2 : Inv b1 b2 e2) : Inv b b2 (e1 ++ e2) := by
  obtain ⟨k1, p1, y1, le1, s1, n1⟩ := h1
  obtain ⟨k2, p2, y2, le2, s2, n2⟩ := h2
  refine ⟨k2.trans k1, p2.trans p1, y2.trans y1, ?_, ?_, ?_⟩
  · rw [countQueries_append]
    rcases hc : b.cache with _ | pi
    · rcases n1 hc with ⟨hz, hn⟩ | hs
      · rcases n2 hn with ⟨hz2, _⟩ | _ <;> omega
      · have h2z := s2 hs
        omega
    · have h1z := s1 (by rw [hc]; rfl)
      have h2z := s2 (by rw [h1z.2, hc]; rfl)
      omega
  · intro hsome
    have h1z := s1 hsome
    have h2z := s2 (by rw [h1z.2]; exact hsome)
    rw [countQueries_append]
    exact ⟨by omega, h2z.2.trans h1z.2⟩
  · intro hn
    rw [countQueries_append]
    rcases n1 hn with ⟨hz, hn1⟩ | hs
    · rcases n2 hn1 with ⟨hz2, hn2⟩ | hs2
      · exact Or.inl ⟨by omega, hn2⟩
      · exact Or.inr hs2
    · have h2z := s2 hs
      exact Or.inr (by rw [h2z.2]; exact hs)

lemma resolvable_frame {b bp : Backend} (hp : bp.project = b.project)
    (hy : bp.python = b.python) (h : resolvable b) : resolvable bp := by
  unfold resolvable at h ⊢
  rw [hp, hy]
  exact h

lemma inv_resolve (b : Backend) (h : resolvable b) :
    Inv b (resolvedInterpreter b).backend (resolvedInterpreter b).events := by
  rcases hc : b.cache with _ | pi
  · rcases ht : truthy b.python
    · rw [resolve_falsy b hc ht]
      refine ⟨rfl, rfl, rfl, by simp [countQueries], ?_, ?_⟩
      · intro hs; rw [hc] at hs; simp at hs
      · intro _; exact Or.inr rfl
    · rcases h with h | h
      · rw [ht] at h; cases h
      · rcases hf : b.project.findInterpreters (b.python.getD "") with _ | ⟨pi, rest⟩
        · exact absurd hf h
        · rw [resolve_hit b pi rest hc ht hf]
          refine ⟨rfl, rfl, rfl, by simp [countQueries, Event.isQuery], ?_, ?_⟩
          · intro hs; rw [hc] at hs; simp at hs
          · intro _; exact Or.inr rfl
  · rw [resolve_cached b pi hc]
    exact ⟨rfl, rfl, rfl, by simp [countQueries],
      fun _ => ⟨by simp [countQueries], rfl⟩,
      fun hn => by rw [hc] at hn; cases hn⟩

lemma inv_ident (b : Backend) (h : resolvable b) :
    Inv b (identImpl b).backend (identImpl b).events := by
  by_cases hk : b.kind = BackendKind.conda
  · rcases ht : truthy b.python
    · rw [ident_conda_nohint b hk ht]
      exact inv_resolve b h
    · rw [ident_conda_hint b hk ht]
      exact inv_pure b [] rfl
  · rw [ident_not_conda b hk]
    exact inv_resolve b h

lemma mkEvs_no_query (w : World) (p : String) :
    countQueries (if w.fs.isDir p then [] else [Event.mkdir p]) = 0 := by
  rcases hd : w.fs.isDir p <;> simp [hd, countQueries, Event.isQuery]

lemma inv_getLocation (w : World) (b : Backend) (name : Option String)
    (h : resolvable b) :
    Inv b (getLocation w b name).backend (getLocation w b name).events := by
  rcases ht : truthy name
  · rw [getLocation_unnamed w b name ht]
    exact inv_comp (inv_pure b _ (mkEvs_no_query w b.project.venvLocation))
      (inv_ident b h)
  · rw [getLocation_named w b name ht]
    exact inv_pure b _ (mkEvs_no_query w b.project.venvLocation)

lemma ensure_no_query (w : World) (location : String) (force : Bool) :
    countQueries (ensureClean w location force).1 = 0 := by
  rcases hp : w.fs.pathExists location
  · rw [ensure_absent w location force hp]; rfl
  · cases force
    · rw [ensure_fail w location hp]; rfl
    · rw [ensure_forced w location hp]; rfl

lemma condaStep_backend (w : World) (b : Backend) (location : String)
    (args : List String) (pythonVer : String) :
    (condaCreateStep w b location args pythonVer).backend = b := by
  unfold condaCreateStep
  split <;> rfl

lemma condaStep_no_query (w : World) (b : Backend) (location : String)
    (args : List String) (pythonVer : String) :
    countQueries (condaCreateStep w b location args pythonVer).events = 0 := by
  rcases ha : args.any (fun a => pyStartsWith a "python=")
  · rw [condaStep_runs w b location args pythonVer ha]; rfl
  · rw [condaStep_reject w b location args pythonVer ha]; rfl

lemma inv_perform (w : World) (b : Backend) (location : String)
    (args : List String) (h : resolvable b) :
    Inv b (performCreate w b location args).backend
      (performCreate w b location args).events := by
  rcases hbk : b.kind
  case virtualenv =>
    rcases hv : (resolvedInterpreter b).val with er | pi
    · rw [perform_virtualenv_err w b location args er hbk hv]
      exact inv_resolve b h
    · rw [perform_virtualenv w b location args pi hbk hv]
      exact inv_comp (inv_resolve b h) (inv_pure _ _ rfl)
  case venv =>
    rcases hv : (resolvedInterpreter b).val with er | pi
    · rw [perform_venv_err w b location args er hbk hv]
      exact inv_resolve b h
    · rw [perform_venv w b location args pi hbk hv]
      exact inv_comp (inv_resolve b h) (inv_pure _ _ rfl)
  case conda =>
    rcases ht : truthy b.python
    · rcases hv : (resolvedInterpreter b).val with er | pi
      · rw [perform_conda_nohint_err w b location args er hbk ht hv]
        exact inv_resolve b h
      · rw [perform_conda_nohint w b location args pi hbk ht hv]
        have h2 : Inv (resolvedInterpreter b).backend
            (condaCreateStep w (resolvedInterpreter b).backend location args
              (toString pi.major ++ "." ++ toString pi.minor)).backend
            (condaCreateStep w (resolvedInterpreter b).backend location args
              (toString pi.major ++ "." ++ toString pi.minor)).events := by
          rw [condaStep_backend]
          exact inv_pure _ _ (condaStep_no_query w _ location args _)
        exact inv_comp (inv_resolve b h) h2
    · rw [perform_conda_hint w b location args hbk ht]
      have h2 : Inv b (condaCreateStep w b location args (b.python.getD "")).backend
          (condaCreateStep w b location args (b.python.getD "")).events := by
        rw [condaStep_backend]
        exact inv_pure _ _ (condaStep_no_query w b location args _)
      exact h2

lemma inv_afterLocation {b0 : Backend} (w : World) (evs : List Event)
    (b : Backend) (location : String) (args : List String) (force : Bool)
    (hpre : Inv b0 b evs) (h : resolvable b) :
    Inv b0 (afterLocation w evs b location args force).backend
      (afterLocation w evs b location args force).events := by
  unfold afterLocation
  split
  · exact inv_comp hpre (inv_pure b _ (ensure_no_query w location force))
  · exact inv_comp (inv_comp hpre (inv_pure b _ (ensure_no_query w location force)))
      (inv_perform w b location args h)

lemma inv_create (w : World) (b : Backend) (name : Option String)
    (args : List String) (force : Bool) (inProject : Bool) (h : resolvable b) :
    Inv b (Backend.create w b name args force inProject).backend
      (Backend.create w b name args force inProject).events := by
  cases inProject
  case true =>
    rw [create_inproject]
    exact inv_afterLocation w [] b _ args force (inv_pure b [] rfl) h
  case false =>
    rcases hgl : (getLocation w b name).val with er | loc
    · rw [create_locfail w b name args force er hgl]
      exact inv_getLocation w b name h
    · rw [create_located w b name args force loc hgl]
      have hfr := getLocation_frame w b name
      exact inv_afterLocation w _ _ loc args force (inv_getLocation w b name h)
        (resolvable_frame hfr.2.1 hfr.2.2 h)

lemma inv_access (w : World) (b : Backend) (a : Access) (h : resolvable b) :
    Inv b (runAccess w b a).2 (runAccess w b a).1 := by
  cases a with
  | ident => exact inv_ident b h
  | create n ar f ip => exact inv_create w b n ar f ip h

lemma countQueries_runAccesses (w : World) :
    ∀ (accs : List Access) (b : Backend), resolvable b →
      countQueries (runAccesses w b accs).1 ≤ cacheBound b.cache := by
  intro accs
  induction accs with
  | nil =>
    intro b h
    rcases hc : b.cache <;> simp [runAccesses, countQueries, cacheBound]
  | cons a rest ih =>
    intro b h
    obtain ⟨k1, p1, y1, le1, s1, n1⟩ := inv_access w b a h
    have hres2 : resolvable (runAccess w b a).2 := resolvable_frame p1 y1 h
    have ihr := ih (runAccess w b a).2 hres2
    simp only [runAccesses]
    rw [countQueries_append]
    rcases hc : b.cache with _ | pi
    · rcases n1 hc with ⟨hz, hn⟩ | hs
      · rw [hn] at ihr
        simp only [cacheBound] at ihr ⊢
        omega
      · rcases hs2 : (runAccess w b a).2.cache with _ | pj
        · rw [hs2] at hs; simp at hs
        · rw [hs2] at ihr
          simp only [cacheBound] at ihr ⊢
          omega
    · have h1z := s1 (by rw [hc]; rfl)
      have h2c : (runAccess w b a).2.cache = some pi := by rw [h1z.2, hc]
      rw [h2c] at ihr
      simp only [cacheBound] at ihr ⊢
      omega

/-- Counterexample for C4 as stated: against an unresolvable hint the
cached property stores nothing (the access raises before returning), so
two identity accesses on the same instance query the resolver twice. -/
theorem resolver_requery_cex :
    countQueries (runAccesses wOk bNoRes [Access.ident, Access.ident]).1 = 2 := by
  decide

/-- Claim C4, amended: across any sequence of accesses to the identity
or creation logic on the same instance whose hint is absent or
resolvable, the Interpreter Resolver is queried at most once (a raising
resolution is not cached, so only an unresolvable hint can ever be
re-queried). -/
theorem resolver_memoized_when_resolvable (w : World) (b : Backend)
    (accs : List Access) (hres : resolvable b) :
    countQueries (runAccesses w b accs).1 ≤ 1 := by
  have h := countQueries_runAccesses w accs b hres
  rcases hc : b.cache with _ | pi
  · rw [hc] at h
    simpa [cacheBound] using h
  · rw [hc] at h
    simp only [cacheBound] at h
    omega

/-- Witness for the amended C4: an ident access followed by a full
create on the same resolvable instance queries the resolver at most
once. -/
theorem resolver_memoized_when_resolvable_witness :
    countQueries (runAccesses wOk bVenv
      [Access.ident, Access.create none [] false false]).1 ≤ 1 :=
  resolver_memoized_when_resolvable wOk bVenv
    [Access.ident, Access.create none [] false false] (Or.inr (by decide))

end PdmVenv
